import Mathlib

/-!
Verification development for a Deno task-scheduler service (`src/main.ts`).
The service stores task definitions in a key-value store, schedules cron
timers that trigger remote GitHub Actions workflows, and normalizes
workflow/run status responses.  The definitions below are a shallow
embedding of the relevant functions of `main.ts`; theorems settle the
specification claims about them.
-/

namespace TaskApp

/-! ## String trimming (JavaScript `String.prototype.trim`) -/

/-- Whitespace characters removed by `trim`. -/
def isWs (c : Char) : Bool :=
  c = ' ' || c = '\t' || c = '\n' || c = '\r'

/-- Drop whitespace from the end of a character list. -/
def dropEndWs (l : List Char) : List Char :=
  (l.reverse.dropWhile isWs).reverse

/-- Trim whitespace from both ends of a character list. -/
def trimChars (l : List Char) : List Char :=
  dropEndWs (l.dropWhile isWs)

/-- JavaScript `s.trim()`: removes leading and trailing whitespace. -/
def jsTrim (s : String) : String :=
  ⟨trimChars s.data⟩

theorem dropWhile_ws_idem (l : List Char) :
    (l.dropWhile isWs).dropWhile isWs = l.dropWhile isWs := by
  induction l with
  | nil => rfl
  | cons a t ih =>
    by_cases h : isWs a
    · simp [List.dropWhile, h, ih]
    · simp [List.dropWhile, h]

theorem dropEndWs_idem (l : List Char) :
    dropEndWs (dropEndWs l) = dropEndWs l := by
  unfold dropEndWs
  rw [List.reverse_reverse, dropWhile_ws_idem]

/-- A list whose head is not whitespace is unchanged by `dropWhile isWs`. -/
theorem dropWhile_ws_eq_self_of_head {a : Char} {t : List Char}
    (h : ¬ isWs a) : (a :: t).dropWhile isWs = a :: t := by
  simp [List.dropWhile, h]

/-- If `dropWhile isWs` leaves a list unchanged, it leaves every
    list obtained by shortening it from the back unchanged as well. -/
theorem dropWhile_ws_take {l : List Char} (h : l.dropWhile isWs = l)
    (n : Nat) : (l.take n).dropWhile isWs = l.take n := by
  cases l with
  | nil => simp
  | cons a t =>
    cases n with
    | zero => simp
    | succ m =>
      have ha : ¬ isWs a := by
        by_contra hw
        simp only [List.dropWhile, hw] at h
        have := congrArg List.length h
        simp at this
        have hle := (List.dropWhile_sublist (l := t) isWs).length_le
        omega
      simp only [List.take]
      exact dropWhile_ws_eq_self_of_head ha

/-- `dropEndWs` produces a `take` of its argument. -/
theorem dropEndWs_eq_take (l : List Char) :
    ∃ n, dropEndWs l = l.take n := by
  obtain ⟨pre, hpre⟩ := List.dropWhile_suffix (l := l.reverse) isWs
  set d := l.reverse.dropWhile isWs
  refine ⟨d.length, ?_⟩
  have hl : d.reverse ++ pre.reverse = l := by
    have h2 := congrArg List.reverse hpre
    simpa [List.reverse_append] using h2
  show d.reverse = l.take d.length
  conv_rhs => rw [← hl]
  exact (List.take_left' (by simp)).symm

theorem trimChars_idem (l : List Char) : trimChars (trimChars l) = trimChars l := by
  unfold trimChars
  obtain ⟨n, hn⟩ := dropEndWs_eq_take (l.dropWhile isWs)
  have hfront : (dropEndWs (l.dropWhile isWs)).dropWhile isWs
      = dropEndWs (l.dropWhile isWs) := by
    rw [hn]
    exact dropWhile_ws_take (dropWhile_ws_idem l) n
  rw [hfront, dropEndWs_idem]

/-- Trimming is idempotent. -/
theorem jsTrim_idem (s : String) : jsTrim (jsTrim s) = jsTrim s := by
  unfold jsTrim
  exact congrArg String.mk (trimChars_idem s.data)

/-! ## Error values (`AppError`) -/

/-- `AppError` from `main.ts`: carries a message and an HTTP status. -/
structure AppError where
  message : String
  status : Nat
deriving DecidableEq, Repr

/-- Validation failure for a missing/blank task name. -/
def nameRequiredError : AppError := ⟨"任务名称不能为空", 400⟩
/-- Validation failure for a missing/blank repository. -/
def repoRequiredError : AppError := ⟨"仓库地址不能为空", 400⟩
/-- Validation failure for a missing/blank workflow. -/
def workflowRequiredError : AppError := ⟨"工作流不能为空", 400⟩
/-- Validation failure for a missing/blank cron expression. -/
def cronRequiredError : AppError := ⟨"cron表达式不能为空", 400⟩
/-- Conflict: a task with the same name already exists. -/
def nameConflictError : AppError := ⟨"任务名称已存在", 400⟩
/-- Not-found failure raised by `TaskStore.get`. -/
def taskNotFoundError : AppError := ⟨"任务不存在", 404⟩
/-- Missing task id on the update/delete routes. -/
def missingIdError : AppError := ⟨"缺少任务ID", 400⟩

/-! ## Task records and the KV store -/

/-- A task record as persisted by the routes of `main.ts` (the KV value;
    the id is the KV key, kept separately).  `enabled` is `Option Bool`
    because the JavaScript object may simply lack the field. -/
structure TaskRec where
  name : String
  repo : String
  workflow : String
  ref : String
  cron : String
  description : String
  enabled : Option Bool
  created_at : Option Nat
  updated_at : Option Nat
deriving DecidableEq, Repr

/-- Partial task data, as passed to `TaskStore.update`: a JavaScript
    object where every field may be absent. -/
structure TaskData where
  name : Option String
  repo : Option String
  workflow : Option String
  ref : Option String
  cron : Option String
  description : Option String
  enabled : Option Bool
deriving DecidableEq, Repr

/-- The raw request body of the create/update routes: a JavaScript object
    whose fields may each be absent. -/
structure RawTask where
  id : Option String
  name : Option String
  repo : Option String
  workflow : Option String
  ref : Option String
  cron : Option String
  description : Option String
deriving DecidableEq, Repr

/-- The Deno KV collection of tasks: a finite map from id to record,
    modelled as an association list with unique keys. -/
abbrev Store := List (String × TaskRec)

/-- `kv.set(["tasks", id], rec)`: replaces any record stored under `id`
    and stores `rec` there. -/
def kvSet (s : Store) (id : String) (r : TaskRec) : Store :=
  s.filter (fun p => p.1 ≠ id) ++ [(id, r)]

/-- `kv.delete(["tasks", id])`: removes the record under `id` (no-op when
    absent). -/
def kvDelete (s : Store) (id : String) : Store :=
  s.filter (fun p => p.1 ≠ id)

/-- JavaScript truthiness of an optional string (`!x` is true when the
    field is absent or the empty string). -/
def strFalsy (x : Option String) : Bool :=
  match x with
  | none => true
  | some s => s = ""

/-- `!task.f?.trim()`: the field is absent, or trims to the empty string. -/
def fieldBlank (x : Option String) : Bool :=
  match x with
  | none => true
  | some s => jsTrim s = ""

/-- `validateTaskData` from `main.ts`: rejects a task whose `name`,
    `repo`, `workflow` or `cron` is absent or blank after trimming. -/
def validateTaskData (t : RawTask) : Except AppError Unit :=
  if fieldBlank t.name then .error nameRequiredError
  else if fieldBlank t.repo then .error repoRequiredError
  else if fieldBlank t.workflow then .error workflowRequiredError
  else if fieldBlank t.cron then .error cronRequiredError
  else .ok ()

namespace TaskStore

/-- `TaskStore.list`: returns every stored task (id from the key, fields
    from the value). -/
def list (s : Store) : List (String × TaskRec) := s

/-- `TaskStore.get`: the record under `id`, or a 404 `AppError`. -/
def get (s : Store) (id : String) : Except AppError TaskRec :=
  match s.find? (fun p => p.1 = id) with
  | none => .error taskNotFoundError
  | some p => .ok p.2

/-- `TaskStore.create`: stores the supplied data under a fresh id with a
    `created_at` stamp and returns the id.  The random UUID and the clock
    are passed in as parameters `freshId` and `now`. -/
def create (s : Store) (d : TaskData) (freshId : String) (now : Nat) :
    Store × String :=
  (kvSet s freshId
    { name := d.name.getD ""
      repo := d.repo.getD ""
      workflow := d.workflow.getD ""
      ref := d.ref.getD ""
      cron := d.cron.getD ""
      description := d.description.getD ""
      enabled := d.enabled
      created_at := some now
      updated_at := none }, freshId)

/-- The record produced by the object spread
    `{...existing, ...taskData, updated_at: now}`. -/
def mergeRec (existing : TaskRec) (d : TaskData) (now : Nat) : TaskRec :=
  { name := d.name.getD existing.name
    repo := d.repo.getD existing.repo
    workflow := d.workflow.getD existing.workflow
    ref := d.ref.getD existing.ref
    cron := d.cron.getD existing.cron
    description := d.description.getD existing.description
    enabled := d.enabled.or existing.enabled
    created_at := existing.created_at
    updated_at := some now }

/-- `TaskStore.update`: fetches the existing record (404 when absent),
    merges the supplied fields over it, refreshes `updated_at`, persists. -/
def update (s : Store) (id : String) (d : TaskData) (now : Nat) :
    Except AppError Store :=
  match get s id with
  | .error e => .error e
  | .ok existing => .ok (kvSet s id (mergeRec existing d now))

/-- `TaskStore.delete`: idempotent removal. -/
def del (s : Store) (id : String) : Store := kvDelete s id

/-- `TaskStore.checkNameExists`: scans all tasks and reports whether some
    task (other than `excludeId`) stores exactly the trimmed query name. -/
def checkNameExists (s : Store) (name : String)
    (excludeId : Option String) : Bool :=
  (list s).any (fun p =>
    p.2.name = jsTrim name &&
    (match excludeId with
     | none => true
     | some e => p.1 ≠ e))

end TaskStore

/-- `task.ref || "main"`: JavaScript `||` falls back when the field is
    absent or the empty string. -/
def refOrMain (r : Option String) : String :=
  match r with
  | none => "main"
  | some s => if s = "" then "main" else s

/-- `task.description?.trim() || ""`. -/
def descOrEmpty (d : Option String) : String :=
  match d with
  | none => ""
  | some s => jsTrim s

/-! ## GitHub API client (`GitHubAPI`) -/

/-- JavaScript `split("/")` on the character level: splits a character
    list at every `'/'`, keeping empty segments, as `String.prototype.split`
    does with a single-character separator. -/
def splitSlash : List Char → List (List Char)
  | [] => [[]]
  | c :: rest =>
    let r := splitSlash rest
    if c = '/' then [] :: r
    else (c :: r.headD []) :: r.tail

/-- `workflow.split("/")`. -/
def jsSplitSlash (s : String) : List String :=
  (splitSlash s.data).map String.mk

/-- `workflow.includes("/")`: a one-character substring test. -/
def includesSlash (s : String) : Bool :=
  s.data.contains '/'

/-- `workflow.includes("/") ? workflow.split("/").pop() : workflow`:
    the final path segment of a slash-path workflow identifier. -/
def workflowPathOf (workflow : String) : String :=
  if includesSlash workflow then (jsSplitSlash workflow).getLastD workflow
  else workflow

/-- Endpoint issued by `GitHubAPI.getWorkflowInfo`. -/
def getWorkflowInfoEndpoint (repo workflow : String) : String :=
  "/repos/" ++ repo ++ "/actions/workflows/" ++ workflowPathOf workflow

/-- Endpoint issued by `GitHubAPI.triggerWorkflow`. -/
def triggerWorkflowEndpoint (repo workflow : String) : String :=
  "/repos/" ++ repo ++ "/actions/workflows/" ++ workflowPathOf workflow
    ++ "/dispatches"

/-- Endpoint of the workflow lookup inside `GitHubAPI.getWorkflowStatus`
    (the identifier is interpolated verbatim, without splitting). -/
def statusLookupEndpoint (repo workflow : String) : String :=
  "/repos/" ++ repo ++ "/actions/workflows/" ++ workflow

/-- Endpoint of the run-list request inside `GitHubAPI.getWorkflowStatus`. -/
def statusRunsEndpoint (repo workflow : String) : String :=
  "/repos/" ++ repo ++ "/actions/workflows/" ++ workflow ++ "/runs?per_page=1"

/-- The workflow metadata body returned by the lookup request; only the
    `state` field is consulted (`"active"`, `"disabled"`, …). -/
structure WorkflowInfo where
  state : String
deriving DecidableEq, Repr

/-- One entry of `workflow_runs` as consulted by `getWorkflowStatus`. -/
structure WorkflowRun where
  id : Nat
  status : String
  conclusion : String
  created_at : String
deriving DecidableEq, Repr

/-- The upstream behaviour seen by one `getWorkflowStatus` call: the
    outcome of the workflow-lookup request and the outcome of the
    run-list request (a thrown `AppError`, or the parsed body; an absent
    `workflow_runs` field is the empty list). -/
structure Upstream where
  lookup : Except AppError WorkflowInfo
  runs : Except AppError (List WorkflowRun)

/-- The value returned by `getWorkflowStatus`. -/
structure StatusResult where
  last_run : Option String
  status : String
  run_id : Option Nat
  message : String
deriving DecidableEq, Repr

/-- Result when the workflow lookup reports 404/missing. -/
def notFoundResult : StatusResult :=
  ⟨none, "NOT_FOUND", none, "工作流不存在"⟩

/-- Result when the workflow is disabled. -/
def disabledResult : StatusResult :=
  ⟨none, "DISABLED", none, "工作流已禁用"⟩

/-- Result when the workflow has no runs. -/
def neverRunResult : StatusResult :=
  ⟨none, "NEVER_RUN", none, "工作流从未运行"⟩

/-- Result built from a caught error at the method boundary. -/
def apiErrorResult (e : AppError) : StatusResult :=
  ⟨none, "API_ERROR", none, "API 错误: " ++ e.message⟩

/-- Status/message derived from the most recent run (`latestRun`):
    `RUNNING` unless the run is completed, otherwise the conclusion
    mapped by the `switch`, any other conclusion uppercased verbatim. -/
def latestRunResult (latestRun : WorkflowRun) : StatusResult :=
  let sm : String × String :=
    if latestRun.status = "completed" then
      if latestRun.conclusion = "success" then ("SUCCESS", "执行成功")
      else if latestRun.conclusion = "cancelled" then ("CANCELLED", "已取消")
      else if latestRun.conclusion = "failure" then ("FAILURE", "执行失败")
      else (latestRun.conclusion.toUpper, "状态: " ++ latestRun.conclusion)
    else ("RUNNING", "正在运行")
  ⟨some latestRun.created_at, sm.1, some latestRun.id, sm.2⟩

/-- Step 1 of `getWorkflowStatus`: the `.catch` handler that converts a
    404 from the lookup into the sentinel `{state: "not_found"}` and
    re-throws every other error. -/
def resolveLookup (l : Except AppError WorkflowInfo) :
    Except AppError WorkflowInfo :=
  match l with
  | .ok info => .ok info
  | .error e => if e.status = 404 then .ok ⟨"not_found"⟩ else .error e

/-- `GitHubAPI.getWorkflowStatus`: never throws; every error reaching the
    method boundary becomes an `API_ERROR` result. -/
def getWorkflowStatus (u : Upstream) : StatusResult :=
  match resolveLookup u.lookup with
  | .error e => apiErrorResult e
  | .ok workflowInfo =>
    if workflowInfo.state = "not_found" then notFoundResult
    else if workflowInfo.state = "disabled" then disabledResult
    else
      match u.runs with
      | .error e => apiErrorResult e
      | .ok runs =>
        match runs with
        | [] => neverRunResult
        | latestRun :: _ => latestRunResult latestRun

/-! ## Route handlers (the core public contract) -/

/-- `POST /api/tasks` — create a task: validate, reject duplicate names,
    persist the trimmed fields with defaults.  `freshId` and `now` stand
    for the random UUID and the clock. -/
def createTask (s : Store) (task : RawTask) (freshId : String) (now : Nat) :
    Except AppError (Store × String) :=
  match validateTaskData task with
  | .error e => .error e
  | .ok _ =>
    if TaskStore.checkNameExists s (task.name.getD "") none then
      .error nameConflictError
    else
      .ok (TaskStore.create s
        { name := some (jsTrim (task.name.getD ""))
          repo := some (jsTrim (task.repo.getD ""))
          workflow := some (jsTrim (task.workflow.getD ""))
          ref := some (refOrMain task.ref)
          cron := some (jsTrim (task.cron.getD ""))
          description := some (descOrEmpty task.description)
          enabled := none }
        freshId now)

/-- `PUT /api/tasks` — update a task: require an id, validate, reject a
    name held by a different task, merge the trimmed fields. -/
def updateTask (s : Store) (task : RawTask) (now : Nat) :
    Except AppError Store :=
  if strFalsy task.id then .error missingIdError
  else
    match validateTaskData task with
    | .error e => .error e
    | .ok _ =>
      if TaskStore.checkNameExists s (task.name.getD "") task.id then
        .error nameConflictError
      else
        TaskStore.update s (task.id.getD "")
          { name := some (jsTrim (task.name.getD ""))
            repo := some (jsTrim (task.repo.getD ""))
            workflow := some (jsTrim (task.workflow.getD ""))
            ref := some (refOrMain task.ref)
            cron := some (jsTrim (task.cron.getD ""))
            description := some (descOrEmpty task.description)
            enabled := none }
          now

/-- The body returned by `POST /api/tasks/run`. -/
inductive RunNowBody
  /-- `{status: "disabled", message: ...}` — returned without dispatching. -/
  | disabledMsg
  /-- `{success: true}` — the dispatch went through. -/
  | success
deriving DecidableEq, Repr

/-- Outcome of the "run now" route: the response (or propagated error)
    together with the list of dispatch endpoints actually issued. -/
structure RunNowOutcome where
  response : Except AppError RunNowBody
  dispatched : List String
deriving Repr

/-- `POST /api/tasks/run`: fetch the task, look up the workflow, refuse
    to dispatch unless its state is `"active"`, then trigger.  `lookup`
    and `trigger` stand for the outcomes of the two remote calls. -/
def runTaskNow (s : Store) (id : String)
    (lookup : Except AppError WorkflowInfo)
    (trigger : Except AppError Unit) : RunNowOutcome :=
  match TaskStore.get s id with
  | .error e => ⟨.error e, []⟩
  | .ok task =>
    match lookup with
    | .error e => ⟨.error e, []⟩
    | .ok workflowInfo =>
      if workflowInfo.state ≠ "active" then ⟨.ok .disabledMsg, []⟩
      else
        match trigger with
        | .error e => ⟨.error e, [triggerWorkflowEndpoint task.repo task.workflow]⟩
        | .ok _ => ⟨.ok .success, [triggerWorkflowEndpoint task.repo task.workflow]⟩

/-! ## Scheduler startup (`startApp`) -/

/-- A recurring timer registered by `startApp`: cron pattern plus the
    trigger arguments `(repo, workflow, ref)` of its callback. -/
structure Timer where
  cron : String
  repo : String
  workflow : String
  ref : String
deriving DecidableEq, Repr

/-- The timers registered at startup: `startApp` iterates over
    `taskStore.list()` and registers one `Cron` per task, with no check
    of the task's `enabled` flag. -/
def registeredTimers (s : Store) : List Timer :=
  (TaskStore.list s).map (fun p => ⟨p.2.cron, p.2.repo, p.2.workflow, p.2.ref⟩)

/-! ## Operation sequences and the name-uniqueness invariant -/

/-- One operation of the core's create/update contract. -/
inductive Op
  /-- A `POST /api/tasks` call (with its random UUID and clock value). -/
  | create (task : RawTask) (freshId : String) (now : Nat)
  /-- A `PUT /api/tasks` call (with its clock value). -/
  | update (task : RawTask) (now : Nat)

/-- Apply one operation; a failed operation persists nothing, so the
    store is returned unchanged. -/
def stepOp (s : Store) (op : Op) : Store :=
  match op with
  | .create task freshId now =>
    match createTask s task freshId now with
    | .ok r => r.1
    | .error _ => s
  | .update task now =>
    match updateTask s task now with
    | .ok s2 => s2
    | .error _ => s

/-- The store after a sequence of create/update operations from empty. -/
def runOps (ops : List Op) : Store := ops.foldl stepOp []

/-- Every stored name is already trimmed. -/
def namesTrimmed (s : Store) : Prop :=
  ∀ p ∈ s, jsTrim p.2.name = p.2.name

/-- No two stored tasks hold the same trimmed name. -/
def noDupTrimmedNames (s : Store) : Prop :=
  s.Pairwise (fun p q => jsTrim p.2.name ≠ jsTrim q.2.name)

/-- Invariant maintained by the create/update contract. -/
def StoreInv (s : Store) : Prop :=
  namesTrimmed s ∧ noDupTrimmedNames s

instance : DecidablePred StoreInv := by
  intro s
  unfold StoreInv namesTrimmed noDupTrimmedNames
  infer_instance

theorem checkNameExists_true_iff (s : Store) (name : String)
    (ex : Option String) :
    TaskStore.checkNameExists s name ex = true ↔
      ∃ p ∈ s, p.2.name = jsTrim name ∧ ∀ e, ex = some e → p.1 ≠ e := by
  unfold TaskStore.checkNameExists TaskStore.list
  rw [List.any_eq_true]
  cases ex with
  | none => simp
  | some e => simp

theorem storeInv_kvSet {s : Store} {id : String} {r : TaskRec}
    (h : StoreInv s) (hr : jsTrim r.name = r.name)
    (hdiff : ∀ p ∈ s, p.1 ≠ id → p.2.name ≠ r.name) :
    StoreInv (kvSet s id r) := by
  obtain ⟨h1, h2⟩ := h
  constructor
  · intro p hp
    unfold kvSet at hp
    rcases List.mem_append.1 hp with hmem | hmem
    · exact h1 p (List.mem_of_mem_filter hmem)
    · have : p = (id, r) := by simpa using hmem
      rw [this]
      exact hr
  · unfold kvSet
    unfold noDupTrimmedNames at h2 ⊢
    rw [List.pairwise_append]
    refine ⟨List.Pairwise.sublist (List.filter_sublist s) h2, ?_, ?_⟩
    · simp [List.Pairwise]
    · intro a ha b hb
      have hb2 : b = (id, r) := by simpa using hb
      have hmem := List.mem_of_mem_filter ha
      have hane : a.1 ≠ id := by
        have := List.of_mem_filter ha
        simpa using this
      have hname : a.2.name ≠ r.name := hdiff a hmem hane
      rw [hb2]
      show jsTrim a.2.name ≠ jsTrim r.name
      rw [h1 a hmem, hr]
      exact hname

theorem storeInv_stepOp (s : Store) (op : Op) (h : StoreInv s) :
    StoreInv (stepOp s op) := by
  cases op with
  | create task freshId now =>
    show StoreInv (match createTask s task freshId now with
      | .ok r => r.1
      | .error _ => s)
    unfold createTask
    cases validateTaskData task with
    | error e => exact h
    | ok _ =>
      simp only
      by_cases hchk : TaskStore.checkNameExists s (task.name.getD "") none = true
      · simp only [hchk, if_true]
        exact h
      · rw [Bool.not_eq_true] at hchk
        simp only [hchk, Bool.false_eq_true, if_false]
        unfold TaskStore.create
        apply storeInv_kvSet h
        · exact jsTrim_idem _
        · intro p hp _ heq
          have htrue : TaskStore.checkNameExists s (task.name.getD "") none = true := by
            rw [checkNameExists_true_iff]
            exact ⟨p, hp, by simpa using heq, by simp⟩
          rw [hchk] at htrue
          exact Bool.false_ne_true htrue
  | update task now =>
    show StoreInv (match updateTask s task now with
      | .ok s2 => s2
      | .error _ => s)
    unfold updateTask
    by_cases hid : strFalsy task.id = true
    · simp only [hid, if_true]
      exact h
    · rw [Bool.not_eq_true] at hid
      simp only [hid, Bool.false_eq_true, if_false]
      cases hval : validateTaskData task with
      | error e => exact h
      | ok _ =>
        simp only
        by_cases hchk : TaskStore.checkNameExists s (task.name.getD "") task.id = true
        · simp only [hchk, if_true]
          exact h
        · rw [Bool.not_eq_true] at hchk
          simp only [hchk, Bool.false_eq_true, if_false]
          unfold TaskStore.update
          cases hget : TaskStore.get s (task.id.getD "") with
          | error e => exact h
          | ok existing =>
            simp only
            apply storeInv_kvSet h
            · exact jsTrim_idem _
            · intro p hp hne heq
              obtain ⟨i, hi⟩ : ∃ i, task.id = some i := by
                cases hcase : task.id with
                | none => rw [hcase] at hid; simp [strFalsy] at hid
                | some i => exact ⟨i, rfl⟩
              have : TaskStore.checkNameExists s (task.name.getD "") task.id = true := by
                rw [checkNameExists_true_iff]
                refine ⟨p, hp, by simpa using heq, ?_⟩
                intro e he
                rw [hi] at he
                cases he
                rw [hi] at hne
                simpa using hne
              rw [hchk] at this
              exact Bool.false_ne_true this

theorem storeInv_foldl (ops : List Op) :
    ∀ s : Store, StoreInv s → StoreInv (ops.foldl stepOp s) := by
  induction ops with
  | nil => intro s h; exact h
  | cons op rest ih =>
    intro s h
    exact ih (stepOp s op) (storeInv_stepOp s op h)

theorem storeInv_runOps (ops : List Op) : StoreInv (runOps ops) := by
  unfold runOps
  apply storeInv_foldl
  constructor
  · intro p hp
    simp at hp
  · exact List.Pairwise.nil


/-! ## Claim theorems -/

/-- C1: For any sequence of createTask and updateTask operations on the
core's public contract, no two stored tasks ever hold the same trimmed
name simultaneously; a create whose trimmed name equals the trimmed name
of an existing task fails with the conflict error and persists nothing,
and an update whose trimmed name equals the trimmed name of a different
existing task (excluding the task being updated) fails with the conflict
error and changes nothing. -/
theorem c1_create_update_name_uniqueness :
    (∀ ops : List Op, noDupTrimmedNames (runOps ops)) ∧
    (∀ (s : Store) (task : RawTask) (freshId : String) (now : Nat),
      StoreInv s → validateTaskData task = .ok () →
      (∃ p ∈ s, jsTrim p.2.name = jsTrim (task.name.getD "")) →
      createTask s task freshId now = .error nameConflictError ∧
      stepOp s (.create task freshId now) = s) ∧
    (∀ (s : Store) (task : RawTask) (now : Nat) (i : String),
      StoreInv s → task.id = some i → i ≠ "" →
      validateTaskData task = .ok () →
      (∃ p ∈ s, p.1 ≠ i ∧ jsTrim p.2.name = jsTrim (task.name.getD "")) →
      updateTask s task now = .error nameConflictError ∧
      stepOp s (.update task now) = s) := by
  refine ⟨fun ops => (storeInv_runOps ops).2, ?_, ?_⟩
  · rintro s task freshId now hinv hval ⟨p, hp, hname⟩
    have hchk : TaskStore.checkNameExists s (task.name.getD "") none = true := by
      rw [checkNameExists_true_iff]
      exact ⟨p, hp, by rw [← hinv.1 p hp]; exact hname, by simp⟩
    have herr : createTask s task freshId now = .error nameConflictError := by
      unfold createTask
      rw [hval]
      simp [hchk]
    refine ⟨herr, ?_⟩
    show (match createTask s task freshId now with
      | .ok r => r.1
      | .error _ => s) = s
    rw [herr]
  · rintro s task now i hinv hid hne hval ⟨p, hp, hpne, hname⟩
    have hchk : TaskStore.checkNameExists s (task.name.getD "") task.id = true := by
      rw [checkNameExists_true_iff]
      refine ⟨p, hp, by rw [← hinv.1 p hp]; exact hname, ?_⟩
      intro e he
      rw [hid] at he
      cases he
      exact hpne
    have hfalsy : strFalsy task.id = false := by
      rw [hid]
      simpa [strFalsy] using hne
    have herr : updateTask s task now = .error nameConflictError := by
      unfold updateTask
      rw [hval]
      simp [hfalsy, hchk]
    refine ⟨herr, ?_⟩
    show (match updateTask s task now with
      | .ok s2 => s2
      | .error _ => s) = s
    rw [herr]

/-- Witness for C1: on a store holding the task `"nightly"`, a create
whose name trims to `"nightly"` fails with the conflict error, and an
update moving a different task onto that name fails likewise. -/
theorem c1_witness :
    createTask
      [("a", ⟨"nightly", "o/r", "b.yml", "main", "* * * * *", "", none, some 0, none⟩)]
      ⟨none, some " nightly ", some "o/r", some "b.yml", none, some "* * * * *", none⟩
      "id2" 1 = .error nameConflictError ∧
    updateTask
      [("a", ⟨"nightly", "o/r", "b.yml", "main", "* * * * *", "", none, some 0, none⟩)]
      ⟨some "b", some " nightly ", some "o/r", some "b.yml", none, some "* * * * *", none⟩
      1 = .error nameConflictError := by
  constructor
  · exact (c1_create_update_name_uniqueness.2.1
      [("a", ⟨"nightly", "o/r", "b.yml", "main", "* * * * *", "", none, some 0, none⟩)]
      ⟨none, some " nightly ", some "o/r", some "b.yml", none, some "* * * * *", none⟩
      "id2" 1 (by decide) (by rfl)
      ⟨("a", ⟨"nightly", "o/r", "b.yml", "main", "* * * * *", "", none, some 0, none⟩),
        by decide, by decide⟩).1
  · exact (c1_create_update_name_uniqueness.2.2
      [("a", ⟨"nightly", "o/r", "b.yml", "main", "* * * * *", "", none, some 0, none⟩)]
      ⟨some "b", some " nightly ", some "o/r", some "b.yml", none, some "* * * * *", none⟩
      1 "b" (by decide) rfl (by decide) (by rfl)
      ⟨("a", ⟨"nightly", "o/r", "b.yml", "main", "* * * * *", "", none, some 0, none⟩),
        by decide, by decide, by decide⟩).1

/-- C5: For every createTask input in which any of name, repo, workflow
or cron is missing, empty, or whitespace-only after trimming, the call
fails with the corresponding validation error and no record is persisted
(the store is unchanged). -/
theorem c5_create_validation_rejects_blank (s : Store) (task : RawTask)
    (freshId : String) (now : Nat)
    (h : fieldBlank task.name = true ∨ fieldBlank task.repo = true ∨
         fieldBlank task.workflow = true ∨ fieldBlank task.cron = true) :
    (∃ e, createTask s task freshId now = .error e ∧
      e ∈ [nameRequiredError, repoRequiredError, workflowRequiredError,
           cronRequiredError]) ∧
    stepOp s (.create task freshId now) = s := by
  have hval : ∃ e, validateTaskData task = .error e ∧
      e ∈ [nameRequiredError, repoRequiredError, workflowRequiredError,
           cronRequiredError] := by
    unfold validateTaskData
    by_cases h1 : fieldBlank task.name = true
    · exact ⟨nameRequiredError, by simp [h1], by simp⟩
    · by_cases h2 : fieldBlank task.repo = true
      · exact ⟨repoRequiredError, by simp [h1, h2], by simp⟩
      · by_cases h3 : fieldBlank task.workflow = true
        · exact ⟨workflowRequiredError, by simp [h1, h2, h3], by simp⟩
        · by_cases h4 : fieldBlank task.cron = true
          · exact ⟨cronRequiredError, by simp [h1, h2, h3, h4], by simp⟩
          · rcases h with h | h | h | h <;> simp_all
  obtain ⟨e, he, hmem⟩ := hval
  have herr : createTask s task freshId now = .error e := by
    unfold createTask
    rw [he]
  refine ⟨⟨e, herr, hmem⟩, ?_⟩
  show (match createTask s task freshId now with
    | .ok r => r.1
    | .error _ => s) = s
  rw [herr]

/-- Witness for C5: a create whose name is whitespace-only fails with a
validation error and leaves the store unchanged. -/
theorem c5_witness :
    (∃ e, createTask []
        ⟨none, some "   ", some "o/r", some "b.yml", none, some "* * * * *", none⟩
        "id1" 0 = .error e ∧
      e ∈ [nameRequiredError, repoRequiredError, workflowRequiredError,
           cronRequiredError]) ∧
    stepOp [] (.create
        ⟨none, some "   ", some "o/r", some "b.yml", none, some "* * * * *", none⟩
        "id1" 0) = [] :=
  c5_create_validation_rejects_blank []
    ⟨none, some "   ", some "o/r", some "b.yml", none, some "* * * * *", none⟩
    "id1" 0 (Or.inl (by decide))

/-- C6: For every id not present in the store, TaskStore.update fails
with the not-found error and leaves the store unchanged; for every id
that is present, it merges the supplied fields over the existing record
and refreshes updated_at. -/
theorem c6_update_notfound_or_merges (s : Store) (id : String)
    (d : TaskData) (now : Nat) :
    ((∀ p ∈ s, p.1 ≠ id) →
      TaskStore.update s id d now = .error taskNotFoundError ∧
      (match TaskStore.update s id d now with
       | .ok s2 => s2
       | .error _ => s) = s) ∧
    (∀ q, s.find? (fun p => p.1 = id) = some q →
      TaskStore.update s id d now = .ok (kvSet s id
        { name := d.name.getD q.2.name
          repo := d.repo.getD q.2.repo
          workflow := d.workflow.getD q.2.workflow
          ref := d.ref.getD q.2.ref
          cron := d.cron.getD q.2.cron
          description := d.description.getD q.2.description
          enabled := d.enabled.or q.2.enabled
          created_at := q.2.created_at
          updated_at := some now })) := by
  constructor
  · intro h
    have hfind : s.find? (fun p => p.1 = id) = none := by
      rw [List.find?_eq_none]
      intro p hp
      simpa using h p hp
    have herr : TaskStore.update s id d now = .error taskNotFoundError := by
      unfold TaskStore.update TaskStore.get
      rw [hfind]
    exact ⟨herr, by rw [herr]⟩
  · intro q hq
    unfold TaskStore.update TaskStore.get
    rw [hq]
    rfl

/-- Witness for C6: updating a missing id fails with not-found and keeps
the store; updating a present id merges the supplied name over the
record and stamps updated_at. -/
theorem c6_witness :
    (TaskStore.update
        [("a", ⟨"n", "o/r", "b.yml", "main", "* * * * *", "", none, some 0, none⟩)]
        "zzz" ⟨some "m", none, none, none, none, none, none⟩ 7
        = .error taskNotFoundError) ∧
    (TaskStore.update
        [("a", ⟨"n", "o/r", "b.yml", "main", "* * * * *", "", none, some 0, none⟩)]
        "a" ⟨some "m", none, none, none, none, none, none⟩ 7
        = .ok [("a", ⟨"m", "o/r", "b.yml", "main", "* * * * *", "", none, some 0, some 7⟩)]) := by
  constructor
  · exact ((c6_update_notfound_or_merges
      [("a", ⟨"n", "o/r", "b.yml", "main", "* * * * *", "", none, some 0, none⟩)]
      "zzz" ⟨some "m", none, none, none, none, none, none⟩ 7).1
      (by decide)).1
  · have h := (c6_update_notfound_or_merges
      [("a", ⟨"n", "o/r", "b.yml", "main", "* * * * *", "", none, some 0, none⟩)]
      "a" ⟨some "m", none, none, none, none, none, none⟩ 7).2
      ("a", ⟨"n", "o/r", "b.yml", "main", "* * * * *", "", none, some 0, none⟩)
      (by decide)
    rw [h]
    rfl

/-- C10: TaskStore.checkNameExists trims only its query argument, never
the stored names: the result is unchanged when the query is replaced by
its trim, and a stored task matches exactly when its name field equals
the trimmed query character-for-character (excluding excludeId). -/
theorem c10_checkNameExists_trims_query_only (s : Store) (name : String)
    (ex : Option String) :
    TaskStore.checkNameExists s name ex
        = TaskStore.checkNameExists s (jsTrim name) ex ∧
    (TaskStore.checkNameExists s name ex = true ↔
      ∃ p ∈ s, p.2.name = jsTrim name ∧ ∀ e, ex = some e → p.1 ≠ e) := by
  constructor
  · unfold TaskStore.checkNameExists TaskStore.list
    rw [jsTrim_idem]
  · exact checkNameExists_true_iff s name ex

/-- Witness for C10: an untrimmed stored name `" x "` is not matched by
the query `" x "` (whose trim is `"x"`), and the query equals its
trimmed form. -/
theorem c10_witness :
    TaskStore.checkNameExists
        [("a", ⟨" x ", "o/r", "b.yml", "main", "* * * * *", "", none, some 0, none⟩)]
        " x " none
      = TaskStore.checkNameExists
        [("a", ⟨" x ", "o/r", "b.yml", "main", "* * * * *", "", none, some 0, none⟩)]
        (jsTrim " x ") none ∧
    TaskStore.checkNameExists
        [("a", ⟨" x ", "o/r", "b.yml", "main", "* * * * *", "", none, some 0, none⟩)]
        " x " none = false :=
  ⟨(c10_checkNameExists_trims_query_only
      [("a", ⟨" x ", "o/r", "b.yml", "main", "* * * * *", "", none, some 0, none⟩)]
      " x " none).1,
   by decide⟩

/-! ## Evaluation lemmas for `getWorkflowStatus` -/

theorem gws_error_404 {e : AppError} (h : e.status = 404)
    (ru : Except AppError (List WorkflowRun)) :
    getWorkflowStatus ⟨.error e, ru⟩ = notFoundResult := by
  unfold getWorkflowStatus resolveLookup
  simp [h]

theorem gws_error_other {e : AppError} (h : ¬ e.status = 404)
    (ru : Except AppError (List WorkflowRun)) :
    getWorkflowStatus ⟨.error e, ru⟩ = apiErrorResult e := by
  unfold getWorkflowStatus resolveLookup
  simp [h]

theorem gws_ok_notfound {i : WorkflowInfo} (h : i.state = "not_found")
    (ru : Except AppError (List WorkflowRun)) :
    getWorkflowStatus ⟨.ok i, ru⟩ = notFoundResult := by
  unfold getWorkflowStatus resolveLookup
  simp [h]

theorem gws_ok_disabled {i : WorkflowInfo} (h : i.state = "disabled")
    (ru : Except AppError (List WorkflowRun)) :
    getWorkflowStatus ⟨.ok i, ru⟩ = disabledResult := by
  unfold getWorkflowStatus resolveLookup
  have hnf : ¬ i.state = "not_found" := by rw [h]; decide
  simp [h, hnf]

theorem gws_ok_active_err {i : WorkflowInfo} (h1 : ¬ i.state = "not_found")
    (h2 : ¬ i.state = "disabled") {e : AppError} :
    getWorkflowStatus ⟨.ok i, .error e⟩ = apiErrorResult e := by
  unfold getWorkflowStatus resolveLookup
  simp [h1, h2]

theorem gws_ok_active_nil {i : WorkflowInfo} (h1 : ¬ i.state = "not_found")
    (h2 : ¬ i.state = "disabled") :
    getWorkflowStatus ⟨.ok i, .ok []⟩ = neverRunResult := by
  unfold getWorkflowStatus resolveLookup
  simp [h1, h2]

theorem gws_ok_active_cons {i : WorkflowInfo} (h1 : ¬ i.state = "not_found")
    (h2 : ¬ i.state = "disabled") {latestRun : WorkflowRun}
    {rest : List WorkflowRun} :
    getWorkflowStatus ⟨.ok i, .ok (latestRun :: rest)⟩
      = latestRunResult latestRun := by
  unfold getWorkflowStatus resolveLookup
  simp [h1, h2]

/-- The lookup step reported 404/missing: either the request failed with
    status 404 (converted to the sentinel), or the parsed body itself
    carries `state: "not_found"`. -/
def lookupMissing (u : Upstream) : Prop :=
  (∃ e, u.lookup = .error e ∧ e.status = 404) ∨
  (∃ i, u.lookup = .ok i ∧ i.state = "not_found")

/-- The lookup succeeded and the workflow is neither missing nor
    disabled. -/
def lookupEnabledOk (u : Upstream) : Prop :=
  ∃ i, u.lookup = .ok i ∧ i.state ≠ "not_found" ∧ i.state ≠ "disabled"

theorem latestRunResult_run_id (r : WorkflowRun) :
    (latestRunResult r).run_id = some r.id := rfl

theorem gws_eq_notFound_iff (u : Upstream) :
    getWorkflowStatus u = notFoundResult ↔ lookupMissing u := by
  obtain ⟨lu, ru⟩ := u
  cases lu with
  | error e =>
    by_cases h : e.status = 404
    · rw [gws_error_404 h ru]
      simp [lookupMissing, h]
    · rw [gws_error_other h ru]
      constructor
      · intro heq
        have := congrArg StatusResult.status heq
        simp [apiErrorResult, notFoundResult] at this
      · intro hm
        rcases hm with ⟨e2, he2, h404⟩ | ⟨i, hi, _⟩
        · simp only [Except.error.injEq] at he2
          exact absurd (he2 ▸ h404) h
        · simp at hi
  | ok i =>
    by_cases hnf : i.state = "not_found"
    · rw [gws_ok_notfound hnf ru]
      simp [lookupMissing, hnf]
    · have hbody : getWorkflowStatus ⟨.ok i, ru⟩ ≠ notFoundResult := by
        by_cases hd : i.state = "disabled"
        · rw [gws_ok_disabled hd ru]
          intro heq
          have := congrArg StatusResult.status heq
          simp [disabledResult, notFoundResult] at this
        · cases ru with
          | error e =>
            rw [gws_ok_active_err hnf hd]
            intro heq
            have := congrArg StatusResult.status heq
            simp [apiErrorResult, notFoundResult] at this
          | ok runs =>
            cases runs with
            | nil =>
              rw [gws_ok_active_nil hnf hd]
              intro heq
              have := congrArg StatusResult.status heq
              simp [neverRunResult, notFoundResult] at this
            | cons latestRun rest =>
              rw [gws_ok_active_cons hnf hd]
              intro heq
              have := congrArg StatusResult.run_id heq
              simp [latestRunResult_run_id, notFoundResult] at this
      constructor
      · intro heq
        exact absurd heq hbody
      · intro hm
        rcases hm with ⟨e2, he2, _⟩ | ⟨i2, hi2, hst⟩
        · simp at he2
        · simp only [Except.ok.injEq] at hi2
          exact absurd (hi2 ▸ hst) hnf

theorem gws_eq_disabled_iff (u : Upstream) :
    getWorkflowStatus u = disabledResult ↔
      ∃ i, u.lookup = .ok i ∧ i.state = "disabled" := by
  obtain ⟨lu, ru⟩ := u
  cases lu with
  | error e =>
    by_cases h : e.status = 404
    · rw [gws_error_404 h ru]
      constructor
      · intro heq
        have := congrArg StatusResult.status heq
        simp [notFoundResult, disabledResult] at this
      · rintro ⟨i, hi, _⟩
        simp at hi
    · rw [gws_error_other h ru]
      constructor
      · intro heq
        have := congrArg StatusResult.status heq
        simp [apiErrorResult, disabledResult] at this
      · rintro ⟨i, hi, _⟩
        simp at hi
  | ok i =>
    by_cases hnf : i.state = "not_found"
    · rw [gws_ok_notfound hnf ru]
      constructor
      · intro heq
        have := congrArg StatusResult.status heq
        simp [notFoundResult, disabledResult] at this
      · rintro ⟨i2, hi2, hst⟩
        simp only [Except.ok.injEq] at hi2
        rw [← hi2] at hst
        rw [hst] at hnf
        simp at hnf
    · by_cases hd : i.state = "disabled"
      · rw [gws_ok_disabled hd ru]
        simp [hd]
      · have hbody : getWorkflowStatus ⟨.ok i, ru⟩ ≠ disabledResult := by
          cases ru with
          | error e =>
            rw [gws_ok_active_err hnf hd]
            intro heq
            have := congrArg StatusResult.status heq
            simp [apiErrorResult, disabledResult] at this
          | ok runs =>
            cases runs with
            | nil =>
              rw [gws_ok_active_nil hnf hd]
              intro heq
              have := congrArg StatusResult.status heq
              simp [neverRunResult, disabledResult] at this
            | cons latestRun rest =>
              rw [gws_ok_active_cons hnf hd]
              intro heq
              have := congrArg StatusResult.run_id heq
              simp [latestRunResult_run_id, disabledResult] at this
        constructor
        · intro heq
          exact absurd heq hbody
        · rintro ⟨i2, hi2, hst⟩
          simp only [Except.ok.injEq] at hi2
          exact absurd (hi2 ▸ hst) hd

theorem gws_eq_neverRun_iff (u : Upstream) :
    getWorkflowStatus u = neverRunResult ↔
      lookupEnabledOk u ∧ u.runs = .ok [] := by
  obtain ⟨lu, ru⟩ := u
  cases lu with
  | error e =>
    have hbody : getWorkflowStatus ⟨.error e, ru⟩ ≠ neverRunResult := by
      by_cases h : e.status = 404
      · rw [gws_error_404 h ru]
        intro heq
        have := congrArg StatusResult.status heq
        simp [notFoundResult, neverRunResult] at this
      · rw [gws_error_other h ru]
        intro heq
        have := congrArg StatusResult.status heq
        simp [apiErrorResult, neverRunResult] at this
    constructor
    · intro heq
      exact absurd heq hbody
    · rintro ⟨⟨i, hi, _⟩, _⟩
      simp at hi
  | ok i =>
    by_cases hnf : i.state = "not_found"
    · rw [gws_ok_notfound hnf ru]
      constructor
      · intro heq
        have := congrArg StatusResult.status heq
        simp [notFoundResult, neverRunResult] at this
      · rintro ⟨⟨i2, hi2, hst, _⟩, _⟩
        simp only [Except.ok.injEq] at hi2
        exact absurd (hi2 ▸ hst) (by simpa using hnf)
    · by_cases hd : i.state = "disabled"
      · rw [gws_ok_disabled hd ru]
        constructor
        · intro heq
          have := congrArg StatusResult.status heq
          simp [disabledResult, neverRunResult] at this
        · rintro ⟨⟨i2, hi2, _, hst⟩, _⟩
          simp only [Except.ok.injEq] at hi2
          exact absurd (hi2 ▸ hst) (by simpa using hd)
      · cases ru with
        | error e =>
          rw [gws_ok_active_err hnf hd]
          constructor
          · intro heq
            have := congrArg StatusResult.status heq
            simp [apiErrorResult, neverRunResult] at this
          · rintro ⟨_, hruns⟩
            simp at hruns
        | ok runs =>
          cases runs with
          | nil =>
            rw [gws_ok_active_nil hnf hd]
            simp [lookupEnabledOk, hnf, hd]
          | cons latestRun rest =>
            rw [gws_ok_active_cons hnf hd]
            constructor
            · intro heq
              have := congrArg StatusResult.run_id heq
              simp [latestRunResult_run_id, neverRunResult] at this
            · rintro ⟨_, hruns⟩
              simp at hruns

theorem gws_eq_apiError_iff (u : Upstream) :
    (∃ e, getWorkflowStatus u = apiErrorResult e) ↔
      (∃ e, u.lookup = .error e ∧ e.status ≠ 404) ∨
      (lookupEnabledOk u ∧ ∃ e, u.runs = .error e) := by
  obtain ⟨lu, ru⟩ := u
  cases lu with
  | error e =>
    by_cases h : e.status = 404
    · rw [gws_error_404 h ru]
      constructor
      · rintro ⟨e2, heq⟩
        have := congrArg StatusResult.status heq
        simp [notFoundResult, apiErrorResult] at this
      · rintro (⟨e2, he2, h404⟩ | ⟨⟨i, hi, _⟩, _⟩)
        · simp only [Except.error.injEq] at he2
          exact absurd (he2 ▸ h) h404
        · simp at hi
    · rw [gws_error_other h ru]
      constructor
      · intro _
        exact Or.inl ⟨e, rfl, h⟩
      · intro _
        exact ⟨e, rfl⟩
  | ok i =>
    by_cases hnf : i.state = "not_found"
    · rw [gws_ok_notfound hnf ru]
      constructor
      · rintro ⟨e2, heq⟩
        have := congrArg StatusResult.status heq
        simp [notFoundResult, apiErrorResult] at this
      · rintro (⟨e2, he2, _⟩ | ⟨⟨i2, hi2, hst, _⟩, _⟩)
        · simp at he2
        · simp only [Except.ok.injEq] at hi2
          exact absurd (hi2 ▸ hst) (by simpa using hnf)
    · by_cases hd : i.state = "disabled"
      · rw [gws_ok_disabled hd ru]
        constructor
        · rintro ⟨e2, heq⟩
          have := congrArg StatusResult.status heq
          simp [disabledResult, apiErrorResult] at this
        · rintro (⟨e2, he2, _⟩ | ⟨⟨i2, hi2, _, hst⟩, _⟩)
          · simp at he2
          · simp only [Except.ok.injEq] at hi2
            exact absurd (hi2 ▸ hst) (by simpa using hd)
      · cases ru with
        | error e =>
          rw [gws_ok_active_err hnf hd]
          constructor
          · intro _
            exact Or.inr ⟨⟨i, rfl, hnf, hd⟩, e, rfl⟩
          · intro _
            exact ⟨e, rfl⟩
        | ok runs =>
          have hbody : ∀ e2, getWorkflowStatus ⟨.ok i, .ok runs⟩ ≠ apiErrorResult e2 := by
            intro e2
            cases runs with
            | nil =>
              rw [gws_ok_active_nil hnf hd]
              intro heq
              have := congrArg StatusResult.status heq
              simp [neverRunResult, apiErrorResult] at this
            | cons latestRun rest =>
              rw [gws_ok_active_cons hnf hd]
              intro heq
              have := congrArg StatusResult.run_id heq
              simp [latestRunResult_run_id, apiErrorResult] at this
          constructor
          · rintro ⟨e2, heq⟩
            exact absurd heq (hbody e2)
          · rintro (⟨e2, he2, _⟩ | ⟨_, e2, he2⟩)
            · simp at he2
            · simp at he2

/-- C2: getWorkflowStatus never raises and classifies every upstream
behaviour: it returns the NOT_FOUND result (run_id and last_run null)
iff the workflow lookup reports 404/missing; the DISABLED result iff the
lookup succeeds with state disabled (independently of the run list, i.e.
without querying runs); the NEVER_RUN result iff the lookup succeeds,
the workflow is neither missing nor disabled, and the run list is empty;
any error reaching the method boundary is converted into an API_ERROR
result carrying the error text; otherwise the result is derived from the
most recent run. -/
theorem c2_getWorkflowStatus_total_classification (u : Upstream) :
    (getWorkflowStatus u = notFoundResult ↔ lookupMissing u) ∧
    (getWorkflowStatus u = disabledResult ↔
      ∃ i, u.lookup = .ok i ∧ i.state = "disabled") ∧
    ((∃ i, u.lookup = .ok i ∧ i.state = "disabled") →
      ∀ r, getWorkflowStatus ⟨u.lookup, r⟩ = disabledResult) ∧
    (getWorkflowStatus u = neverRunResult ↔
      lookupEnabledOk u ∧ u.runs = .ok []) ∧
    (∀ e, u.lookup = .error e → e.status ≠ 404 →
      getWorkflowStatus u = apiErrorResult e) ∧
    (lookupEnabledOk u → ∀ e, u.runs = .error e →
      getWorkflowStatus u = apiErrorResult e) ∧
    ((∃ e, getWorkflowStatus u = apiErrorResult e) ↔
      (∃ e, u.lookup = .error e ∧ e.status ≠ 404) ∨
      (lookupEnabledOk u ∧ ∃ e, u.runs = .error e)) ∧
    (lookupEnabledOk u → ∀ latestRun rest, u.runs = .ok (latestRun :: rest) →
      getWorkflowStatus u = latestRunResult latestRun) := by
  obtain ⟨lu, ru⟩ := u
  refine ⟨gws_eq_notFound_iff ⟨lu, ru⟩, gws_eq_disabled_iff ⟨lu, ru⟩, ?_,
    gws_eq_neverRun_iff ⟨lu, ru⟩, ?_, ?_, gws_eq_apiError_iff ⟨lu, ru⟩, ?_⟩
  · rintro ⟨i, hi, hd⟩ r
    simp only at hi
    subst hi
    exact gws_ok_disabled hd r
  · intro e he h404
    simp only at he
    subst he
    exact gws_error_other h404 ru
  · rintro ⟨i, hi, hnf, hd⟩ e he
    simp only at hi he
    subst hi
    subst he
    exact gws_ok_active_err hnf hd
  · rintro ⟨i, hi, hnf, hd⟩ latestRun rest hruns
    simp only at hi hruns
    subst hi
    subst hruns
    exact gws_ok_active_cons hnf hd

/-- Witness for C2: a lookup failing with status 500 yields the
API_ERROR result carrying the error text, and a lookup failing with 404
yields the NOT_FOUND result. -/
theorem c2_witness :
    getWorkflowStatus ⟨.error ⟨"boom", 500⟩, .ok []⟩
        = apiErrorResult ⟨"boom", 500⟩ ∧
    getWorkflowStatus ⟨.error ⟨"gone", 404⟩, .ok []⟩ = notFoundResult := by
  constructor
  · exact (c2_getWorkflowStatus_total_classification
      ⟨.error ⟨"boom", 500⟩, .ok []⟩).2.2.2.2.1 ⟨"boom", 500⟩ rfl (by decide)
  · exact (c2_getWorkflowStatus_total_classification
      ⟨.error ⟨"gone", 404⟩, .ok []⟩).1.2 (Or.inl ⟨⟨"gone", 404⟩, rfl, rfl⟩)

/-- C7: When the most recent run's execution state is not completed,
getWorkflowStatus returns status RUNNING; when it is completed, the
conclusion is mapped success→SUCCESS, cancelled→CANCELLED,
failure→FAILURE, and any other conclusion value is returned uppercased
verbatim, with run_id and last_run taken from that run. -/
theorem c7_latest_run_mapping (u : Upstream) (i : WorkflowInfo)
    (hl : u.lookup = .ok i) (hnf : i.state ≠ "not_found")
    (hd : i.state ≠ "disabled") (latestRun : WorkflowRun)
    (rest : List WorkflowRun) (hr : u.runs = .ok (latestRun :: rest)) :
    (latestRun.status ≠ "completed" → getWorkflowStatus u =
      ⟨some latestRun.created_at, "RUNNING", some latestRun.id, "正在运行"⟩) ∧
    (latestRun.status = "completed" →
      (latestRun.conclusion = "success" → getWorkflowStatus u =
        ⟨some latestRun.created_at, "SUCCESS", some latestRun.id, "执行成功"⟩) ∧
      (latestRun.conclusion = "cancelled" → getWorkflowStatus u =
        ⟨some latestRun.created_at, "CANCELLED", some latestRun.id, "已取消"⟩) ∧
      (latestRun.conclusion = "failure" → getWorkflowStatus u =
        ⟨some latestRun.created_at, "FAILURE", some latestRun.id, "执行失败"⟩) ∧
      (latestRun.conclusion ≠ "success" → latestRun.conclusion ≠ "cancelled" →
        latestRun.conclusion ≠ "failure" → getWorkflowStatus u =
        ⟨some latestRun.created_at, latestRun.conclusion.toUpper,
          some latestRun.id, "状态: " ++ latestRun.conclusion⟩)) := by
  obtain ⟨lu, ru⟩ := u
  simp only at hl hr
  subst hl
  subst hr
  rw [gws_ok_active_cons hnf hd]
  unfold latestRunResult
  constructor
  · intro h
    simp [h]
  · intro h
    refine ⟨?_, ?_, ?_, ?_⟩
    · intro hc
      simp [h, hc]
    · intro hc
      simp [h, hc]
    · intro hc
      simp [h, hc]
    · intro h1 h2 h3
      simp [h, h1, h2, h3]

/-- Witness for C7: a completed run with the unmapped conclusion
`"neutral"` yields that conclusion uppercased verbatim, with run_id and
last_run taken from the run. -/
theorem c7_witness :
    getWorkflowStatus ⟨.ok ⟨"active"⟩, .ok [⟨9, "completed", "neutral", "ts"⟩]⟩
      = ⟨some "ts", ("neutral").toUpper, some 9, "状态: " ++ "neutral"⟩ :=
  ((c7_latest_run_mapping ⟨.ok ⟨"active"⟩, .ok [⟨9, "completed", "neutral", "ts"⟩]⟩
      ⟨"active"⟩ rfl (by decide) (by decide)
      ⟨9, "completed", "neutral", "ts"⟩ [] rfl).2 rfl).2.2.2
    (by decide) (by decide) (by decide)

/-- C3 (code defect): at startup the scheduler registers a cron timer
for every task in the store with no check of the enabled flag — here a
task whose enabled field is false still gets a timer registered. -/
theorem c3_startApp_schedules_disabled_task :
    registeredTimers
      [("t1", ⟨"nightly", "o/r", "build.yml", "main", "0 2 * * *", "",
        some false, some 0, none⟩)]
      = [⟨"0 2 * * *", "o/r", "build.yml", "main"⟩] := rfl

/-- C4 counterexample: a successful createTask whose input has no ref
and no enabled field stores a record whose ref is "main" but whose
enabled field is absent — not true — so list() does not show a record
with enabled=true. -/
theorem c4_counterexample :
    createTask [] ⟨none, some "nightly-build", some "acme/app",
        some "build.yml", none, some "0 2 * * *", none⟩ "id1" 0
      = .ok ([("id1", ⟨"nightly-build", "acme/app", "build.yml", "main",
          "0 2 * * *", "", none, some 0, none⟩)], "id1") ∧
    (⟨"nightly-build", "acme/app", "build.yml", "main", "0 2 * * *", "",
        none, some 0, none⟩ : TaskRec).enabled ≠ some true := by
  exact ⟨rfl, by decide⟩

/-- C4 (amended): every successful createTask stores a record under the
returned id whose ref is "main" when the input ref is absent; the create
path stores no enabled field (it is absent, not set to true), and a
subsequent list() includes that record. -/
theorem c4_create_defaults (s : Store) (task : RawTask) (freshId : String)
    (now : Nat) (href : task.ref = none) (s2 : Store) (id : String)
    (hok : createTask s task freshId now = .ok (s2, id)) :
    id = freshId ∧
    (freshId, (⟨jsTrim (task.name.getD ""), jsTrim (task.repo.getD ""),
      jsTrim (task.workflow.getD ""), "main", jsTrim (task.cron.getD ""),
      descOrEmpty task.description, none, some now, none⟩ : TaskRec))
        ∈ TaskStore.list s2 ∧
    (∀ p ∈ TaskStore.list s2, p.1 = freshId →
      p.2.ref = "main" ∧ p.2.enabled = none) := by
  unfold createTask at hok
  cases hval : validateTaskData task with
  | error e =>
    rw [hval] at hok
    simp at hok
  | ok _ =>
    rw [hval] at hok
    by_cases hchk : TaskStore.checkNameExists s (task.name.getD "") none = true
    · simp only [hchk, if_true] at hok
      simp at hok
    · rw [Bool.not_eq_true] at hchk
      simp only [hchk, Bool.false_eq_true, if_false] at hok
      unfold TaskStore.create at hok
      simp only [Except.ok.injEq, Prod.mk.injEq] at hok
      obtain ⟨hs2, hid⟩ := hok
      subst hs2
      refine ⟨hid.symm, ?_, ?_⟩
      · unfold TaskStore.list kvSet
        apply List.mem_append_right
        simp [href, refOrMain]
      · intro p hp hpid
        unfold TaskStore.list kvSet at hp
        rcases List.mem_append.1 hp with hmem | hmem
        · have := List.of_mem_filter hmem
          simp [hpid] at this
        · rw [List.mem_singleton] at hmem
          rw [hmem]
          simp [href, refOrMain]

/-- C8 counterexample: for the workflow identifier "ci/build.yml" the
lookup inside the status probe interpolates the identifier verbatim
into the endpoint — it does not use only the final path segment, unlike
getWorkflowInfo. -/
theorem c8_counterexample :
    statusLookupEndpoint "owner/app" "ci/build.yml"
        = "/repos/owner/app/actions/workflows/ci/build.yml" ∧
    statusLookupEndpoint "owner/app" "ci/build.yml"
        ≠ "/repos/owner/app/actions/workflows/build.yml" ∧
    getWorkflowInfoEndpoint "owner/app" "ci/build.yml"
        = "/repos/owner/app/actions/workflows/build.yml" := by
  refine ⟨rfl, by decide, rfl⟩

/-- C8 (amended): for every workflow identifier containing a path
separator, getWorkflowInfo and triggerWorkflow resolve it to its final
path segment in the endpoints they issue, but both requests of the
status probe interpolate the identifier verbatim. -/
theorem c8_final_segment_resolution (repo workflow : String)
    (h : includesSlash workflow = true) :
    getWorkflowInfoEndpoint repo workflow
      = "/repos/" ++ repo ++ "/actions/workflows/"
          ++ (jsSplitSlash workflow).getLastD workflow ∧
    triggerWorkflowEndpoint repo workflow
      = "/repos/" ++ repo ++ "/actions/workflows/"
          ++ (jsSplitSlash workflow).getLastD workflow ++ "/dispatches" ∧
    statusLookupEndpoint repo workflow
      = "/repos/" ++ repo ++ "/actions/workflows/" ++ workflow ∧
    statusRunsEndpoint repo workflow
      = "/repos/" ++ repo ++ "/actions/workflows/" ++ workflow
          ++ "/runs?per_page=1" := by
  unfold getWorkflowInfoEndpoint triggerWorkflowEndpoint
    statusLookupEndpoint statusRunsEndpoint workflowPathOf
  simp [h]

/-- Witness for C8 (amended): the endpoints computed for the slash-path
identifier "ci/build.yml". -/
theorem c8_witness :
    getWorkflowInfoEndpoint "o/r" "ci/build.yml"
      = "/repos/" ++ "o/r" ++ "/actions/workflows/"
          ++ (jsSplitSlash "ci/build.yml").getLastD "ci/build.yml" ∧
    triggerWorkflowEndpoint "o/r" "ci/build.yml"
      = "/repos/" ++ "o/r" ++ "/actions/workflows/"
          ++ (jsSplitSlash "ci/build.yml").getLastD "ci/build.yml"
          ++ "/dispatches" ∧
    statusLookupEndpoint "o/r" "ci/build.yml"
      = "/repos/" ++ "o/r" ++ "/actions/workflows/" ++ "ci/build.yml" ∧
    statusRunsEndpoint "o/r" "ci/build.yml"
      = "/repos/" ++ "o/r" ++ "/actions/workflows/" ++ "ci/build.yml"
          ++ "/runs?per_page=1" :=
  c8_final_segment_resolution "o/r" "ci/build.yml" (by decide)

/-- C9: on the "run now" path a dispatch is only ever issued when the
resolved workflow's state is active; a non-active state yields the
disabled body with no dispatch, and a failed lookup propagates its error
with no dispatch. -/
theorem c9_run_now_dispatch_guard (s : Store) (id : String)
    (lookup : Except AppError WorkflowInfo) (trigger : Except AppError Unit) :
    ((runTaskNow s id lookup trigger).dispatched ≠ [] →
      ∃ i, lookup = .ok i ∧ i.state = "active") ∧
    (∀ t, TaskStore.get s id = .ok t → ∀ i, lookup = .ok i →
      i.state ≠ "active" →
      runTaskNow s id lookup trigger = ⟨.ok .disabledMsg, []⟩) ∧
    (∀ t, TaskStore.get s id = .ok t → ∀ e, lookup = .error e →
      (runTaskNow s id lookup trigger).response = .error e ∧
      (runTaskNow s id lookup trigger).dispatched = []) := by
  refine ⟨?_, ?_, ?_⟩
  · intro hne
    unfold runTaskNow at hne
    cases hget : TaskStore.get s id with
    | error e =>
      rw [hget] at hne
      simp at hne
    | ok t =>
      rw [hget] at hne
      cases lookup with
      | error e => simp at hne
      | ok i =>
        by_cases hst : i.state = "active"
        · exact ⟨i, rfl, hst⟩
        · simp [hst] at hne
  · intro t hget i hl hst
    subst hl
    unfold runTaskNow
    rw [hget]
    simp [hst]
  · intro t hget e hl
    subst hl
    unfold runTaskNow
    rw [hget]
    exact ⟨rfl, rfl⟩

/-- Witness for C9: with a stored task and a lookup reporting state
"disabled", the run-now path returns the disabled body and issues no
dispatch. -/
theorem c9_witness :
    runTaskNow
      [("a", ⟨"n", "o/r", "b.yml", "main", "* * * * *", "", none, some 0, none⟩)]
      "a" (.ok ⟨"disabled"⟩) (.ok ())
      = ⟨.ok .disabledMsg, []⟩ :=
  (c9_run_now_dispatch_guard
    [("a", ⟨"n", "o/r", "b.yml", "main", "* * * * *", "", none, some 0, none⟩)]
    "a" (.ok ⟨"disabled"⟩) (.ok ())).2.1
    ⟨"n", "o/r", "b.yml", "main", "* * * * *", "", none, some 0, none⟩
    rfl ⟨"disabled"⟩ rfl (by decide)

/-- Witness for C4 (amended): the concrete create of Scenario A with no
ref and no enabled field in the input — the stored record has ref "main"
and an absent enabled field. -/
theorem c4_witness :
    ("id1", (⟨"nightly-build", "acme/app", "build.yml", "main", "0 2 * * *",
      "", none, some 0, none⟩ : TaskRec)) ∈ TaskStore.list
        [("id1", ⟨"nightly-build", "acme/app", "build.yml", "main",
          "0 2 * * *", "", none, some 0, none⟩)] ∧
    ∀ p ∈ TaskStore.list
        [("id1", (⟨"nightly-build", "acme/app", "build.yml", "main",
          "0 2 * * *", "", none, some 0, none⟩ : TaskRec))],
      p.1 = "id1" → p.2.ref = "main" ∧ p.2.enabled = none := by
  have h := c4_create_defaults []
    ⟨none, some "nightly-build", some "acme/app", some "build.yml", none,
      some "0 2 * * *", none⟩
    "id1" 0 rfl
    [("id1", ⟨"nightly-build", "acme/app", "build.yml", "main", "0 2 * * *",
      "", none, some 0, none⟩)]
    "id1" rfl
  exact ⟨h.2.1, h.2.2⟩
